import Mathlib

/-
Verification of the PatchAgent build/replay/debug orchestration layer.

The definitions below are a shallow embedding of the Python sources:
  * patchagent/builder/ossfuzz.py  (OSSFuzzBuilder: hash_patch, _build, _replay,
    resolve_poc_path, SANITIZER_MAP)
  * patchagent/builder/builder.py  (Builder.resolve_poc_path)
  * patchagent/agent/clike/proxy/default.py (debugger tool: diagnosis loop,
    run_cmd_with_path_fix)
  * patchagent/agent/clike/proxy/debugger.py (DebuggerSession.run_command / stop)

Machine integers are modelled as Nat with explicit reduction modulo 2^32 or
2^64; Python dictionaries are association lists; filesystem paths are lists of
components; the filesystem state relevant to the build cache (the completion
marker files) is a map from cache key to the marker file content.
-/

namespace PatchAgent

/-! ### MD5 (model of Python hashlib.md5(...).hexdigest())

`OSSFuzzBuilder.hash_patch` keys the build cache by the MD5 hex digest of the
patch text.  The digest itself is computed by the standard library; the
definition below is the standard MD5 algorithm on byte lists, with 32-bit
words represented as Nat reduced modulo 2^32. -/

def u32 (n : Nat) : Nat := n % 4294967296

def rotl32 (x c : Nat) : Nat := (u32 (x <<< c)) ||| (x >>> (32 - c))

def md5K : List Nat := [
  0xd76aa478, 0xe8c7b756, 0x242070db, 0xc1bdceee,
  0xf57c0faf, 0x4787c62a, 0xa8304613, 0xfd469501,
  0x698098d8, 0x8b44f7af, 0xffff5bb1, 0x895cd7be,
  0x6b901122, 0xfd987193, 0xa679438e, 0x49b40821,
  0xf61e2562, 0xc040b340, 0x265e5a51, 0xe9b6c7aa,
  0xd62f105d, 0x02441453, 0xd8a1e681, 0xe7d3fbc8,
  0x21e1cde6, 0xc33707d6, 0xf4d50d87, 0x455a14ed,
  0xa9e3e905, 0xfcefa3f8, 0x676f02d9, 0x8d2a4c8a,
  0xfffa3942, 0x8771f681, 0x6d9d6122, 0xfde5380c,
  0xa4beea44, 0x4bdecfa9, 0xf6bb4b60, 0xbebfbc70,
  0x289b7ec6, 0xeaa127fa, 0xd4ef3085, 0x04881d05,
  0xd9d4d039, 0xe6db99e5, 0x1fa27cf8, 0xc4ac5665,
  0xf4292244, 0x432aff97, 0xab9423a7, 0xfc93a039,
  0x655b59c3, 0x8f0ccc92, 0xffeff47d, 0x85845dd1,
  0x6fa87e4f, 0xfe2ce6e0, 0xa3014314, 0x4e0811a1,
  0xf7537e82, 0xbd3af235, 0x2ad7d2bb, 0xeb86d391]

def md5S : List Nat := [
  7, 12, 17, 22, 7, 12, 17, 22, 7, 12, 17, 22, 7, 12, 17, 22,
  5, 9, 14, 20, 5, 9, 14, 20, 5, 9, 14, 20, 5, 9, 14, 20,
  4, 11, 16, 23, 4, 11, 16, 23, 4, 11, 16, 23, 4, 11, 16, 23,
  6, 10, 15, 21, 6, 10, 15, 21, 6, 10, 15, 21, 6, 10, 15, 21]

def md5F (i b c d : Nat) : Nat :=
  if i < 16 then (b &&& c) ||| ((b ^^^ 0xffffffff) &&& d)
  else if i < 32 then (d &&& b) ||| ((d ^^^ 0xffffffff) &&& c)
  else if i < 48 then b ^^^ c ^^^ d
  else c ^^^ (b ||| (d ^^^ 0xffffffff))

def md5G (i : Nat) : Nat :=
  if i < 16 then i
  else if i < 32 then (5 * i + 1) % 16
  else if i < 48 then (3 * i + 5) % 16
  else (7 * i) % 16

def md5Round (M : List Nat) (st : Nat × Nat × Nat × Nat) (i : Nat) :
    Nat × Nat × Nat × Nat :=
  let a := st.1
  let b := st.2.1
  let c := st.2.2.1
  let d := st.2.2.2
  let f := u32 (md5F i b c d + a + md5K.getD i 0 + M.getD (md5G i) 0)
  (d, u32 (b + rotl32 f (md5S.getD i 0)), b, c)

def leWord (bs : List Nat) : Nat :=
  bs.getD 0 0 + 256 * bs.getD 1 0 + 65536 * bs.getD 2 0 + 16777216 * bs.getD 3 0

def chunkWords (chunk : List Nat) : List Nat :=
  (List.range 16).map (fun j => leWord ((chunk.drop (4 * j)).take 4))

def md5ProcessChunk (st : Nat × Nat × Nat × Nat) (chunk : List Nat) :
    Nat × Nat × Nat × Nat :=
  let M := chunkWords chunk
  let r := (List.range 64).foldl (md5Round M) st
  (u32 (st.1 + r.1), u32 (st.2.1 + r.2.1), u32 (st.2.2.1 + r.2.2.1),
    u32 (st.2.2.2 + r.2.2.2))

def md5Pad (msg : List Nat) : List Nat :=
  let len := msg.length
  let zeros := (120 - (len + 1) % 64) % 64
  let bitLen := (8 * len) % 18446744073709551616
  msg ++ [0x80] ++ List.replicate zeros 0 ++
    (List.range 8).map (fun j => (bitLen >>> (8 * j)) % 256)

def md5Chunks (st : Nat × Nat × Nat × Nat) (l : List Nat) : Nat × Nat × Nat × Nat :=
  if h : l = [] then st
  else md5Chunks (md5ProcessChunk st (l.take 64)) (l.drop 64)
termination_by l.length
decreasing_by
  simp only [List.length_drop]
  have : 0 < l.length := List.length_pos.mpr h
  omega

def hexDigitChar (n : Nat) : Char :=
  if n < 10 then Char.ofNat (48 + n) else Char.ofNat (87 + n)

def byteHex (b : Nat) : List Char := [hexDigitChar (b / 16 % 16), hexDigitChar (b % 16)]

def wordLEHex (w : Nat) : List Char :=
  byteHex (w % 256) ++ byteHex ((w >>> 8) % 256) ++ byteHex ((w >>> 16) % 256) ++
    byteHex ((w >>> 24) % 256)

def utf8EncodeChar (c : Char) : List Nat :=
  let n := c.toNat
  if n < 128 then [n]
  else if n < 2048 then [192 + n / 64, 128 + n % 64]
  else if n < 65536 then [224 + n / 4096, 128 + (n / 64) % 64, 128 + n % 64]
  else [240 + n / 262144, 128 + (n / 4096) % 64, 128 + (n / 64) % 64, 128 + n % 64]

def strBytes (s : String) : List Nat :=
  s.data.foldr (fun c acc => utf8EncodeChar c ++ acc) []

def md5hex (s : String) : String :=
  let r := md5Chunks (0x67452301, 0xefcdab89, 0x98badcfe, 0x10325476)
    (md5Pad (strBytes s))
  String.mk (wordLEHex r.1 ++ wordLEHex r.2.1 ++ wordLEHex r.2.2.1 ++ wordLEHex r.2.2.2)

/-! ### Sanitizers and the build-cache key (ossfuzz.py) -/

/-- The sanitizer kinds named by the sources (patchagent.parser.Sanitizer; the
enum module itself is not among the analyzed files, but every member consumed
by ossfuzz.py and parser/__init__.py is listed here). -/
inductive Sanitizer where
  | AddressSanitizer
  | UndefinedBehaviorSanitizer
  | LeakAddressSanitizer
  | MemorySanitizer
  | JazzerSanitizer
  | JavaNativeSanitizer
  | LibFuzzer
  | ThreadSanitizer
deriving DecidableEq

namespace OSSFuzzBuilder

/-- OSSFuzzBuilder.SANITIZER_MAP: AddressSanitizer, LeakAddressSanitizer and
JazzerSanitizer all map to the OSS-Fuzz sanitizer name "address" (the source
comments document that OSS-Fuzz maps Jazzer to AddressSanitizer for JVM
projects). -/
def SANITIZER_MAP : List (Sanitizer × String) := [
  (Sanitizer.AddressSanitizer, "address"),
  (Sanitizer.UndefinedBehaviorSanitizer, "undefined"),
  (Sanitizer.LeakAddressSanitizer, "address"),
  (Sanitizer.MemorySanitizer, "memory"),
  (Sanitizer.JazzerSanitizer, "address")]

/-- Dictionary lookup SANITIZER_MAP[sanitizer]; none models a Python KeyError. -/
def sanitizerName (sanitizer : Sanitizer) : Option String :=
  (SANITIZER_MAP.find? (fun p => p.1 == sanitizer)).map Prod.snd

/-- OSSFuzzBuilder.hash_patch: the cache key
md5(patch).hexdigest() ++ "-" ++ SANITIZER_MAP[sanitizer]. -/
def hash_patch (sanitizer : Sanitizer) (patch : String) : Option String :=
  (sanitizerName sanitizer).map (fun name => md5hex patch ++ "-" ++ name)

/-- The key-scoped build workspace self.workspace / self.hash_patch(...),
with paths modelled as lists of components. -/
def workspaceDir (workspace : List String) (sanitizer : Sanitizer) (patch : String) :
    Option (List String) :=
  (hash_patch sanitizer patch).map (fun key => workspace ++ [key])

/-- OSSFuzzBuilder.build_finish_indicator:
self.workspace / self.hash_patch(sanitizer, patch) / ".build". -/
def build_finish_indicator (workspace : List String) (sanitizer : Sanitizer)
    (patch : String) : Option (List String) :=
  (hash_patch sanitizer patch).map (fun key => workspace ++ [key, ".build"])

end OSSFuzzBuilder

/-! ### Helper lemmas about String append -/

theorem strData_append (s t : String) : (s ++ t).data = s.data ++ t.data := rfl

theorem strAppend_cancel_left (x : String) {y z : String} (h : x ++ y = x ++ z) :
    y = z := by
  have hd : x.data ++ y.data = x.data ++ z.data := by
    have := congrArg String.data h
    simpa [strData_append] using this
  have hyz := List.append_cancel_left hd
  cases y; cases z
  exact congrArg String.mk hyz

/-- C1: for every patch text and every two distinct sanitizer kinds,
hash_patch would have to be injective in the sanitizer component.  This fails
on the code: AddressSanitizer and LeakAddressSanitizer are distinct kinds but
SANITIZER_MAP sends both to "address", so for the same patch they share the
cache key and hence the workspace directory and completion-marker file. -/
theorem hash_patch_sanitizer_separation_counterexample :
    Sanitizer.AddressSanitizer ≠ Sanitizer.LeakAddressSanitizer ∧
    OSSFuzzBuilder.hash_patch Sanitizer.AddressSanitizer "" =
      OSSFuzzBuilder.hash_patch Sanitizer.LeakAddressSanitizer "" ∧
    OSSFuzzBuilder.workspaceDir [] Sanitizer.AddressSanitizer "" =
      OSSFuzzBuilder.workspaceDir [] Sanitizer.LeakAddressSanitizer "" ∧
    OSSFuzzBuilder.build_finish_indicator [] Sanitizer.AddressSanitizer "" =
      OSSFuzzBuilder.build_finish_indicator [] Sanitizer.LeakAddressSanitizer "" :=
  ⟨by decide, rfl, rfl, rfl⟩

/-- C1 (amended): for a fixed patch, two sanitizer kinds get distinct cache
keys exactly when SANITIZER_MAP sends them to distinct sanitizer names; when
the names differ the key-scoped workspaces and completion markers are distinct
as well.  (AddressSanitizer, LeakAddressSanitizer and JazzerSanitizer
deliberately share the name "address" and therefore share keys.) -/
theorem hash_patch_sanitizer_separation (A B : Sanitizer) (patch : String)
    (a b : String) (w : List String)
    (ha : OSSFuzzBuilder.sanitizerName A = some a)
    (hb : OSSFuzzBuilder.sanitizerName B = some b) :
    (OSSFuzzBuilder.hash_patch A patch = OSSFuzzBuilder.hash_patch B patch ↔ a = b) ∧
    (a ≠ b →
      OSSFuzzBuilder.workspaceDir w A patch ≠ OSSFuzzBuilder.workspaceDir w B patch ∧
      OSSFuzzBuilder.build_finish_indicator w A patch ≠
        OSSFuzzBuilder.build_finish_indicator w B patch) := by
  have hkeys : OSSFuzzBuilder.hash_patch A patch = some (md5hex patch ++ "-" ++ a) := by
    simp [OSSFuzzBuilder.hash_patch, ha]
  have hkeys' : OSSFuzzBuilder.hash_patch B patch = some (md5hex patch ++ "-" ++ b) := by
    simp [OSSFuzzBuilder.hash_patch, hb]
  have keyInj : md5hex patch ++ "-" ++ a = md5hex patch ++ "-" ++ b → a = b := by
    intro h
    have h1 : (md5hex patch ++ "-") ++ a = (md5hex patch ++ "-") ++ b := by
      simpa [String.append_assoc] using h
    exact strAppend_cancel_left _ h1
  constructor
  · rw [hkeys, hkeys']
    constructor
    · intro h
      exact keyInj (Option.some.inj h)
    · intro h; rw [h]
  · intro hne
    constructor
    · simp only [OSSFuzzBuilder.workspaceDir, hkeys, hkeys', Option.map_some]
      intro h
      have := Option.some.inj h
      have := List.append_cancel_left this
      simp only [List.cons.injEq] at this
      exact hne (keyInj this.1)
    · simp only [OSSFuzzBuilder.build_finish_indicator, hkeys, hkeys', Option.map_some]
      intro h
      have := Option.some.inj h
      have := List.append_cancel_left this
      simp only [List.cons.injEq] at this
      exact hne (keyInj this.1)

theorem hash_patch_sanitizer_separation_witness :
    (OSSFuzzBuilder.hash_patch Sanitizer.AddressSanitizer "" =
       OSSFuzzBuilder.hash_patch Sanitizer.MemorySanitizer "" ↔
       "address" = "memory") ∧
    ("address" ≠ "memory" →
      OSSFuzzBuilder.workspaceDir [] Sanitizer.AddressSanitizer "" ≠
        OSSFuzzBuilder.workspaceDir [] Sanitizer.MemorySanitizer "" ∧
      OSSFuzzBuilder.build_finish_indicator [] Sanitizer.AddressSanitizer "" ≠
        OSSFuzzBuilder.build_finish_indicator [] Sanitizer.MemorySanitizer "") :=
  hash_patch_sanitizer_separation Sanitizer.AddressSanitizer Sanitizer.MemorySanitizer
    "" "address" "memory" [] rfl rfl

/-! ### The build pipeline (OSSFuzzBuilder._build)

_build runs, in order: an early return if the completion marker exists;
rmtree + mkdir of the key-scoped workspace; "cp -r" of the source tree;
"cp -r" of the fuzz-tooling tree; the debug-flag injection (which catches its
own exceptions and therefore cannot fail); two "patch -p1" invocations of the
patch text against the copied source tree; _build_image; "infra/helper.py
build_fuzzers"; "infra/helper.py check_build"; finally it writes the patch
text into the completion marker.  Each stage is an external process whose
success is modelled by an oracle succ : Stage → Bool; the helper
safe_subprocess_run (modelled from the spec: it raises a structured
BuilderProcessError carrying captured stdout/stderr on non-zero exit) raises
on the first failing stage, the "cp -r" calls raise CalledProcessError, and
_build_image raises DockerUnavailableError once its retry budget is spent. -/

inductive Stage where
  | copySource
  | copyFuzzTooling
  | injectDebugFlags
  | patchApply1
  | patchApply2
  | buildImage
  | buildFuzzers
  | checkBuild
deriving DecidableEq

/-- Whether a stage can raise: _inject_debug_flags traps its own exceptions. -/
def canFail : Stage → Bool
  | Stage.injectDebugFlags => false
  | _ => true

def stagesInOrder : List Stage := [
  Stage.copySource, Stage.copyFuzzTooling, Stage.injectDebugFlags,
  Stage.patchApply1, Stage.patchApply2, Stage.buildImage, Stage.buildFuzzers,
  Stage.checkBuild]

inductive BuildError where
  | keyError
  | calledProcessError (stage : Stage)
  | dockerUnavailable
  | builderProcessError (stage : Stage)
deriving DecidableEq

/-- The exception each stage raises when its subprocess fails. -/
def stageError : Stage → BuildError
  | Stage.copySource => BuildError.calledProcessError Stage.copySource
  | Stage.copyFuzzTooling => BuildError.calledProcessError Stage.copyFuzzTooling
  | Stage.buildImage => BuildError.dockerUnavailable
  | s => BuildError.builderProcessError s

def stageFails (succ : Stage → Bool) (s : Stage) : Bool := canFail s && !(succ s)

/-- Run the stages in order; return the trace of attempted stages and the
first failing stage, if any (the remaining stages are not attempted). -/
def runStages (succ : Stage → Bool) : List Stage → List Stage × Option Stage
  | [] => ([], none)
  | s :: rest =>
    if stageFails succ s then ([s], some s)
    else
      let p := runStages succ rest
      (s :: p.1, p.2)

/-- The completion markers: for each cache key, the content of the marker file
if it exists.  This is the only filesystem state the build cache consults. -/
def BuildState : Type := String → Option String

def writeMarker (st : BuildState) (key patch : String) : BuildState :=
  fun k => if k = key then some patch else st k

structure BuildResult where
  state : BuildState
  steps : List Stage
  error : Option BuildError

/-- OSSFuzzBuilder._build for one (sanitizer, patch) pair: an early return
when the completion marker exists; otherwise the stage pipeline, writing the
marker (with the patch text as content) only when every stage succeeded. -/
def _build (succ : Stage → Bool) (st : BuildState) (sanitizer : Sanitizer)
    (patch : String) : BuildResult :=
  match OSSFuzzBuilder.hash_patch sanitizer patch with
  | none => ⟨st, [], some BuildError.keyError⟩
  | some key =>
    if (st key).isSome then ⟨st, [], none⟩
    else
      match runStages succ stagesInOrder with
      | (tr, none) => ⟨writeMarker st key patch, tr, none⟩
      | (tr, some failed) => ⟨st, tr, some (stageError failed)⟩

theorem runStages_all_ok (succ : Stage → Bool) (l : List Stage)
    (h : ∀ s ∈ l, stageFails succ s = false) : runStages succ l = (l, none) := by
  induction l with
  | nil => rfl
  | cons s rest ih =>
    have hs : stageFails succ s = false := h s (List.mem_cons_self s rest)
    have hrest : ∀ x ∈ rest, stageFails succ x = false :=
      fun x hx => h x (List.mem_cons_of_mem s hx)
    simp [runStages, hs, ih hrest]

theorem runStages_none_no_fail (succ : Stage → Bool) (l : List Stage)
    (h : (runStages succ l).2 = none) : ∀ s ∈ l, stageFails succ s = false := by
  induction l with
  | nil => intro s hs; cases hs
  | cons s rest ih =>
    intro x hx
    by_cases hfail : stageFails succ s = true
    · exfalso
      simp [runStages, hfail] at h
    · simp only [Bool.not_eq_true] at hfail
      simp only [runStages, hfail, Bool.false_eq_true, if_false] at h
      rcases List.mem_cons.mp hx with hx0 | hx1
      · rw [hx0]; exact hfail
      · exact ih h x hx1

theorem runStages_fail_some (succ : Stage → Bool) (l : List Stage) (s : Stage)
    (hmem : s ∈ l) (hfail : stageFails succ s = true) :
    (runStages succ l).2 ≠ none := by
  intro hnone
  have := runStages_none_no_fail succ l hnone s hmem
  rw [this] at hfail
  cases hfail

/-- C3: if the completion marker for the key of (sanitizer, patch) already
exists, _build returns immediately: no stage is run, the state is unchanged
and no error is raised; consequently, when every build stage succeeds,
building twice with identical arguments performs the expensive build_fuzzers
subprocess exactly once and the second call is a no-op. -/
theorem build_cache_idempotent (succ : Stage → Bool) (st : BuildState)
    (sanitizer : Sanitizer) (patch key : String)
    (hkey : OSSFuzzBuilder.hash_patch sanitizer patch = some key) :
    ((st key).isSome → _build succ st sanitizer patch = ⟨st, [], none⟩) ∧
    (st key = none → (∀ stage, succ stage = true) →
      (_build succ st sanitizer patch).steps.count Stage.buildFuzzers = 1 ∧
      (_build succ st sanitizer patch).error = none ∧
      _build succ (_build succ st sanitizer patch).state sanitizer patch =
        ⟨(_build succ st sanitizer patch).state, [], none⟩) := by
  constructor
  · intro hmark
    simp [_build, hkey, hmark]
  · intro hnone hall
    have hok : ∀ s ∈ stagesInOrder, stageFails succ s = false := by
      intro s _
      simp [stageFails, hall s]
    have hrun : runStages succ stagesInOrder = (stagesInOrder, none) :=
      runStages_all_ok succ _ hok
    have h1 : _build succ st sanitizer patch =
        ⟨writeMarker st key patch, stagesInOrder, none⟩ := by
      simp [_build, hkey, hnone, hrun]
    refine ⟨?_, ?_, ?_⟩
    · rw [h1]; rfl
    · rw [h1]
    · rw [h1]
      have hmark2 : (writeMarker st key patch key).isSome := by
        simp [writeMarker]
      simp [_build, hkey, hmark2]

theorem build_cache_idempotent_witness :
    (_build (fun _ => true) (fun _ => none) Sanitizer.AddressSanitizer
        "").steps.count Stage.buildFuzzers = 1 ∧
    (_build (fun _ => true) (fun _ => none) Sanitizer.AddressSanitizer
        "").error = none ∧
    _build (fun _ => true)
        (_build (fun _ => true) (fun _ => none) Sanitizer.AddressSanitizer "").state
        Sanitizer.AddressSanitizer "" =
      ⟨(_build (fun _ => true) (fun _ => none) Sanitizer.AddressSanitizer "").state,
        [], none⟩ :=
  (build_cache_idempotent (fun _ => true) (fun _ => none) Sanitizer.AddressSanitizer
    "" (md5hex "" ++ "-" ++ "address") rfl).2 rfl (fun _ => rfl)

/-- C4: starting from a state without the marker, the marker appears in the
final state only if the container-image stage, the build-fuzzers stage and
the post-build check stage all succeeded (and no error was raised); and if
any fallible stage fails, an error is raised and the marker is still absent,
so a later retry rebuilds from scratch. -/
theorem marker_implies_full_success (succ : Stage → Bool) (st : BuildState)
    (sanitizer : Sanitizer) (patch key : String)
    (hkey : OSSFuzzBuilder.hash_patch sanitizer patch = some key)
    (hnone : st key = none) :
    (((_build succ st sanitizer patch).state key).isSome →
      succ Stage.buildImage = true ∧ succ Stage.buildFuzzers = true ∧
      succ Stage.checkBuild = true ∧ (_build succ st sanitizer patch).error = none) ∧
    ((∃ stage, canFail stage = true ∧ succ stage = false) →
      (_build succ st sanitizer patch).error ≠ none ∧
      (_build succ st sanitizer patch).state key = none) := by
  constructor
  · intro hmark
    rcases hr : runStages succ stagesInOrder with ⟨tr, err⟩
    cases err with
    | none =>
      have hnofail : ∀ s ∈ stagesInOrder, stageFails succ s = false := by
        apply runStages_none_no_fail
        rw [hr]
      have himg := hnofail Stage.buildImage (by simp [stagesInOrder])
      have hfuz := hnofail Stage.buildFuzzers (by simp [stagesInOrder])
      have hchk := hnofail Stage.checkBuild (by simp [stagesInOrder])
      simp only [stageFails, canFail, Bool.and_eq_false_iff, Bool.not_eq_false'] at himg hfuz hchk
      refine ⟨?_, ?_, ?_, ?_⟩
      · rcases himg with h | h
        · cases h
        · exact h
      · rcases hfuz with h | h
        · cases h
        · exact h
      · rcases hchk with h | h
        · cases h
        · exact h
      · simp [_build, hkey, hnone, hr]
    | some failed =>
      exfalso
      have : (_build succ st sanitizer patch).state key = none := by
        simp [_build, hkey, hnone, hr]
      rw [this] at hmark
      cases hmark
  · rintro ⟨stage, hcf, hsf⟩
    have hmem : stage ∈ stagesInOrder := by
      cases stage <;> simp [stagesInOrder]
    have hfail : stageFails succ stage = true := by
      simp [stageFails, hcf, hsf]
    have hne := runStages_fail_some succ stagesInOrder stage hmem hfail
    rcases hr : runStages succ stagesInOrder with ⟨tr, err⟩
    cases err with
    | none => exfalso; apply hne; rw [hr]
    | some failed =>
      constructor
      · simp [_build, hkey, hnone, hr]
      · simp [_build, hkey, hnone, hr]

theorem marker_implies_full_success_witness :
    (((_build (fun _ => true) (fun _ => none) Sanitizer.AddressSanitizer
        "").state (md5hex "" ++ "-" ++ "address")).isSome →
      (fun (_ : Stage) => true) Stage.buildImage = true ∧
      (fun (_ : Stage) => true) Stage.buildFuzzers = true ∧
      (fun (_ : Stage) => true) Stage.checkBuild = true ∧
      (_build (fun _ => true) (fun _ => none) Sanitizer.AddressSanitizer
        "").error = none) ∧
    ((_build (fun _ => false) (fun _ => none) Sanitizer.AddressSanitizer
        "").error ≠ none ∧
     (_build (fun _ => false) (fun _ => none) Sanitizer.AddressSanitizer
        "").state (md5hex "" ++ "-" ++ "address") = none) :=
  ⟨(marker_implies_full_success (fun _ => true) (fun _ => none)
      Sanitizer.AddressSanitizer "" (md5hex "" ++ "-" ++ "address") rfl rfl).1,
   (marker_implies_full_success (fun _ => false) (fun _ => none)
      Sanitizer.AddressSanitizer "" (md5hex "" ++ "-" ++ "address") rfl rfl).2
     ⟨Stage.buildImage, rfl, rfl⟩⟩

/-- C9: after materializing the key-scoped workspace (the two copy stages),
the patch is applied by two successive "patch -p1" invocations before any
build stage runs, and the build proceeds only when the apply succeeds: a
failing first patch invocation raises the structured process-failure, the
trace stops at that stage (no image/build/check stage runs) and no marker is
written. -/
theorem patch_apply_two_pass_gates_build (succ succ2 : Stage → Bool)
    (st : BuildState) (sanitizer : Sanitizer) (patch key : String)
    (hkey : OSSFuzzBuilder.hash_patch sanitizer patch = some key)
    (hnone : st key = none)
    (hall : ∀ stage, succ stage = true)
    (hcp : succ2 Stage.copySource = true)
    (hcp2 : succ2 Stage.copyFuzzTooling = true)
    (hpf : succ2 Stage.patchApply1 = false) :
    (_build succ st sanitizer patch).steps = [
      Stage.copySource, Stage.copyFuzzTooling, Stage.injectDebugFlags,
      Stage.patchApply1, Stage.patchApply2, Stage.buildImage, Stage.buildFuzzers,
      Stage.checkBuild] ∧
    (_build succ2 st sanitizer patch).error =
      some (BuildError.builderProcessError Stage.patchApply1) ∧
    (_build succ2 st sanitizer patch).steps = [
      Stage.copySource, Stage.copyFuzzTooling, Stage.injectDebugFlags,
      Stage.patchApply1] ∧
    (_build succ2 st sanitizer patch).state key = none := by
  have hok : ∀ s ∈ stagesInOrder, stageFails succ s = false := by
    intro s _
    simp [stageFails, hall s]
  have hrun : runStages succ stagesInOrder = (stagesInOrder, none) :=
    runStages_all_ok succ _ hok
  have hrun2 : runStages succ2 stagesInOrder =
      ([Stage.copySource, Stage.copyFuzzTooling, Stage.injectDebugFlags,
        Stage.patchApply1], some Stage.patchApply1) := by
    simp [stagesInOrder, runStages, stageFails, canFail, hcp, hcp2, hpf]
  have h1 : _build succ st sanitizer patch =
      ⟨writeMarker st key patch, stagesInOrder, none⟩ := by
    simp [_build, hkey, hnone, hrun]
  have h2 : _build succ2 st sanitizer patch =
      ⟨st, [Stage.copySource, Stage.copyFuzzTooling, Stage.injectDebugFlags,
        Stage.patchApply1], some (stageError Stage.patchApply1)⟩ := by
    simp [_build, hkey, hnone, hrun2]
  refine ⟨?_, ?_, ?_, ?_⟩
  · rw [h1]; rfl
  · rw [h2]; rfl
  · rw [h2]
  · rw [h2]; exact hnone

theorem patch_apply_two_pass_gates_build_witness :
    (_build (fun _ => true) (fun _ => none) Sanitizer.AddressSanitizer "").steps = [
      Stage.copySource, Stage.copyFuzzTooling, Stage.injectDebugFlags,
      Stage.patchApply1, Stage.patchApply2, Stage.buildImage, Stage.buildFuzzers,
      Stage.checkBuild] ∧
    (_build (fun s => s == Stage.copySource || s == Stage.copyFuzzTooling)
        (fun _ => none) Sanitizer.AddressSanitizer "").error =
      some (BuildError.builderProcessError Stage.patchApply1) ∧
    (_build (fun s => s == Stage.copySource || s == Stage.copyFuzzTooling)
        (fun _ => none) Sanitizer.AddressSanitizer "").steps = [
      Stage.copySource, Stage.copyFuzzTooling, Stage.injectDebugFlags,
      Stage.patchApply1] ∧
    (_build (fun s => s == Stage.copySource || s == Stage.copyFuzzTooling)
        (fun _ => none) Sanitizer.AddressSanitizer "").state
      (md5hex "" ++ "-" ++ "address") = none :=
  patch_apply_two_pass_gates_build (fun _ => true)
    (fun s => s == Stage.copySource || s == Stage.copyFuzzTooling)
    (fun _ => none) Sanitizer.AddressSanitizer "" (md5hex "" ++ "-" ++ "address")
    rfl rfl (fun _ => rfl) rfl rfl rfl

/-! ### The replay fallback chain (OSSFuzzBuilder._replay)

On a non-zero exit of the reproduction subprocess, _replay catches the
BuilderProcessError (modelled from the spec: safe_subprocess_run raises it on
non-zero exit, carrying the captured stdout and stderr), picks a sanitizer
chain from the project language, and scans stdout then stderr through the
chain via parse_sanitizer_report, returning the first report produced.  The
per-format report grammars live outside the analyzed sources, so the parser is
an abstract parameter parse : String → Sanitizer → Option α.  The Lang tag is
modelled from the spec and from the two cases ossfuzz.py consumes (CLIKE and
JVM). -/

inductive Lang where
  | CLIKE
  | JVM
deriving DecidableEq

inductive ReplayResult (α : Type) where
  | noCrash
  | matched (report : α)
  | unknownReport (stdout stderr : String)
  | dockerUnavailable (output : String)
deriving DecidableEq

/-- The ordered matcher chain chosen in the except-branch of _replay:
CLIKE projects try the requested sanitizer then LibFuzzer; JVM projects try
the requested sanitizer, then the Java native bridge, then LibFuzzer. -/
def sanitizerChain (lang : Lang) (sanitizer : Sanitizer) : List Sanitizer :=
  match lang with
  | Lang.CLIKE => [sanitizer, Sanitizer.LibFuzzer]
  | Lang.JVM => [sanitizer, Sanitizer.JavaNativeSanitizer, Sanitizer.LibFuzzer]

def dockerErrorNeedle : String := "docker: Error response from daemon:"

def containsSubstring (haystack needle : String) : Bool :=
  decide (needle.data <:+: haystack.data)

/-- The nested scanning loops of _replay: for report in [stdout, stderr], for
sanitizer in sanitizers, return the first parse that yields a report. -/
def scanReports {α : Type} (parse : String → Sanitizer → Option α)
    (streams : List String) (sans : List Sanitizer) : Option α :=
  streams.findSome? (fun stream => sans.findSome? (fun sa => parse stream sa))

/-- The except-branch of _replay: scan the matcher chain; if nothing matched,
raise DockerUnavailableError when either captured stream contains the Docker
daemon error needle, otherwise wrap the raw streams in an unknown report. -/
def replayFallback {α : Type} (parse : String → Sanitizer → Option α)
    (lang : Lang) (sanitizer : Sanitizer) (stdout stderr : String) :
    ReplayResult α :=
  match scanReports parse [stdout, stderr] (sanitizerChain lang sanitizer) with
  | some report => ReplayResult.matched report
  | none =>
    if containsSubstring stdout dockerErrorNeedle then
      ReplayResult.dockerUnavailable stdout
    else if containsSubstring stderr dockerErrorNeedle then
      ReplayResult.dockerUnavailable stderr
    else ReplayResult.unknownReport stdout stderr

/-- OSSFuzzBuilder._replay after the build step: a zero exit of the
reproduction subprocess returns none ("no crash"); a non-zero exit goes
through the fallback chain on the captured output. -/
def replayOutcome {α : Type} (parse : String → Sanitizer → Option α)
    (lang : Lang) (sanitizer : Sanitizer) (exitOk : Bool)
    (stdout stderr : String) : ReplayResult α :=
  if exitOk then ReplayResult.noCrash
  else replayFallback parse lang sanitizer stdout stderr

/-- The flattened attempt order of the nested loops: the whole chain against
stdout first, then the whole chain against stderr. -/
def replayAttempts (lang : Lang) (sanitizer : Sanitizer) (stdout stderr : String) :
    List (String × Sanitizer) :=
  (sanitizerChain lang sanitizer).map (fun sa => (stdout, sa)) ++
    (sanitizerChain lang sanitizer).map (fun sa => (stderr, sa))

theorem findSome_map {α β γ : Type} (f : α → β) (g : β → Option γ) (l : List α) :
    (l.map f).findSome? g = l.findSome? (fun a => g (f a)) := by
  induction l with
  | nil => rfl
  | cons a rest ih =>
    simp only [List.map_cons, List.findSome?_cons]
    cases g (f a) <;> simp [ih]

theorem findSome_append {α β : Type} (l1 l2 : List α) (g : α → Option β) :
    (l1 ++ l2).findSome? g =
      match l1.findSome? g with
      | some x => some x
      | none => l2.findSome? g := by
  induction l1 with
  | nil => simp [List.findSome?_cons]
  | cons a rest ih =>
    simp only [List.cons_append, List.findSome?_cons]
    cases g a <;> simp [ih]

theorem scanReports_eq_attempts {α : Type} (parse : String → Sanitizer → Option α)
    (lang : Lang) (sanitizer : Sanitizer) (stdout stderr : String) :
    scanReports parse [stdout, stderr] (sanitizerChain lang sanitizer) =
      (replayAttempts lang sanitizer stdout stderr).findSome?
        (fun p => parse p.1 p.2) := by
  simp only [scanReports, replayAttempts, findSome_append, findSome_map,
    List.findSome?_cons, List.findSome?_nil]
  cases (sanitizerChain lang sanitizer).findSome? (fun sa => parse stdout sa) with
  | some x => rfl
  | none =>
    cases (sanitizerChain lang sanitizer).findSome? (fun sa => parse stderr sa) <;> rfl

theorem findSome_eq_of_index {α β : Type} (l : List α) (g : α → Option β)
    (i : Nat) (hi : i < l.length) (r : β)
    (hr : g (l.get ⟨i, hi⟩) = some r)
    (hprev : ∀ j (hj : j < i), g (l.get ⟨j, Nat.lt_trans hj hi⟩) = none) :
    l.findSome? g = some r := by
  induction l generalizing i with
  | nil => cases hi
  | cons a rest ih =>
    cases i with
    | zero =>
      simp only [List.get] at hr
      simp [List.findSome?_cons, hr]
    | succ n =>
      have h0 : g a = none := hprev 0 (Nat.succ_pos n)
      simp only [List.findSome?_cons, h0]
      exact ih n (Nat.lt_of_succ_lt_succ hi) hr
        (fun j hj => hprev (j + 1) (Nat.succ_lt_succ hj))

/-- C5: the claim states the chain order as requested kind, then the
fuzzing-engine matcher (LibFuzzer), then the managed-native-bridge matcher
(JavaNativeSanitizer) for JVM projects.  The code orders JVM chains with the
bridge BEFORE the engine: with a parser accepting both the bridge and the
engine formats, _replay returns the bridge report, not the engine report the
claimed order would produce. -/
theorem matcher_chain_order_counterexample :
    sanitizerChain Lang.JVM Sanitizer.JazzerSanitizer =
      [Sanitizer.JazzerSanitizer, Sanitizer.JavaNativeSanitizer,
        Sanitizer.LibFuzzer] ∧
    sanitizerChain Lang.JVM Sanitizer.JazzerSanitizer ≠
      [Sanitizer.JazzerSanitizer, Sanitizer.LibFuzzer,
        Sanitizer.JavaNativeSanitizer] ∧
    replayFallback
      (fun _ sa =>
        if sa = Sanitizer.JavaNativeSanitizer then some 1
        else if sa = Sanitizer.LibFuzzer then some 2 else none)
      Lang.JVM Sanitizer.JazzerSanitizer "out" "err" =
      ReplayResult.matched 1 ∧
    ReplayResult.matched (α := Nat) 1 ≠ ReplayResult.matched 2 := by
  refine ⟨rfl, by decide, ?_, by decide⟩
  rfl

/-- C5 (amended): on non-zero exit the captured output is scanned through the
ordered matcher chain — the requested sanitizer kind first, then (for JVM
projects only) the managed-native-bridge matcher, then the fuzzing-engine
matcher; for CLIKE projects the requested kind then the engine matcher.  The
chain runs against stdout first and then stderr, short-circuiting: if every
attempt before position i declines and the attempt at position i produces a
report, that report is returned. -/
theorem matcher_chain_order {α : Type} (parse : String → Sanitizer → Option α)
    (lang : Lang) (sanitizer : Sanitizer) (stdout stderr : String)
    (i : Nat) (hi : i < (replayAttempts lang sanitizer stdout stderr).length)
    (r : α)
    (hr : parse ((replayAttempts lang sanitizer stdout stderr).get ⟨i, hi⟩).1
        ((replayAttempts lang sanitizer stdout stderr).get ⟨i, hi⟩).2 = some r)
    (hprev : ∀ j (hj : j < i),
      parse ((replayAttempts lang sanitizer stdout stderr).get
          ⟨j, Nat.lt_trans hj hi⟩).1
        ((replayAttempts lang sanitizer stdout stderr).get
          ⟨j, Nat.lt_trans hj hi⟩).2 = none) :
    (sanitizerChain Lang.CLIKE sanitizer = [sanitizer, Sanitizer.LibFuzzer] ∧
     sanitizerChain Lang.JVM sanitizer =
       [sanitizer, Sanitizer.JavaNativeSanitizer, Sanitizer.LibFuzzer]) ∧
    replayOutcome parse lang sanitizer false stdout stderr =
      ReplayResult.matched r := by
  refine ⟨⟨rfl, rfl⟩, ?_⟩
  have hscan : scanReports parse [stdout, stderr]
      (sanitizerChain lang sanitizer) = some r := by
    rw [scanReports_eq_attempts]
    exact findSome_eq_of_index _ _ i hi r hr hprev
  simp [replayOutcome, replayFallback, hscan]

theorem matcher_chain_order_witness :
    (sanitizerChain Lang.CLIKE Sanitizer.AddressSanitizer =
       [Sanitizer.AddressSanitizer, Sanitizer.LibFuzzer] ∧
     sanitizerChain Lang.JVM Sanitizer.AddressSanitizer =
       [Sanitizer.AddressSanitizer, Sanitizer.JavaNativeSanitizer,
         Sanitizer.LibFuzzer]) ∧
    replayOutcome
      (fun st sa =>
        if st = "B" ∧ sa = Sanitizer.AddressSanitizer then some 7 else none)
      Lang.CLIKE Sanitizer.AddressSanitizer false "A" "B" =
      ReplayResult.matched 7 :=
  matcher_chain_order
    (fun st sa =>
      if st = "B" ∧ sa = Sanitizer.AddressSanitizer then some 7 else none)
    Lang.CLIKE Sanitizer.AddressSanitizer "A" "B" 2 (by decide) 7 (by decide)
    (fun j hj =>
      match j, hj with
      | 0, _ => rfl
      | 1, _ => rfl)

/-- C2: when the reproduction subprocess exits non-zero and no matcher in the
fallback chain accepts the captured stdout or stderr, _replay returns the
unknown report wrapping the raw stdout and stderr verbatim — it never returns
none ("no crash") and raises nothing — unless one of the streams contains the
Docker daemon error evidence, in which case a DockerUnavailableError is
raised instead of returning a crash report. -/
theorem replay_unknown_fallback {α : Type} (parse : String → Sanitizer → Option α)
    (lang : Lang) (sanitizer : Sanitizer) (stdout stderr : String)
    (hno : scanReports parse [stdout, stderr] (sanitizerChain lang sanitizer) =
      none) :
    replayOutcome parse lang sanitizer false stdout stderr ≠
      ReplayResult.noCrash ∧
    (containsSubstring stdout dockerErrorNeedle = false →
      containsSubstring stderr dockerErrorNeedle = false →
      replayOutcome parse lang sanitizer false stdout stderr =
        ReplayResult.unknownReport stdout stderr) ∧
    (containsSubstring stdout dockerErrorNeedle = true ∨
        containsSubstring stderr dockerErrorNeedle = true →
      replayOutcome parse lang sanitizer false stdout stderr =
          ReplayResult.dockerUnavailable stdout ∨
        replayOutcome parse lang sanitizer false stdout stderr =
          ReplayResult.dockerUnavailable stderr) := by
  refine ⟨?_, ?_, ?_⟩
  · simp only [replayOutcome, Bool.false_eq_true, if_false, replayFallback, hno]
    by_cases h1 : containsSubstring stdout dockerErrorNeedle = true
    · simp [h1]
    · by_cases h2 : containsSubstring stderr dockerErrorNeedle = true
      · simp [h1, h2]
      · simp [h1, h2]
  · intro h1 h2
    simp [replayOutcome, replayFallback, hno, h1, h2]
  · intro h
    rcases h with h1 | h2
    · left
      simp [replayOutcome, replayFallback, hno, h1]
    · by_cases h1 : containsSubstring stdout dockerErrorNeedle = true
      · left
        simp [replayOutcome, replayFallback, hno, h1]
      · right
        simp only [Bool.not_eq_true] at h1
        simp [replayOutcome, replayFallback, hno, h1, h2]

theorem replay_unknown_fallback_witness :
    replayOutcome (α := Nat) (fun _ _ => none) Lang.CLIKE
        Sanitizer.AddressSanitizer false "crash evidence" "" ≠
      ReplayResult.noCrash ∧
    replayOutcome (α := Nat) (fun _ _ => none) Lang.CLIKE
        Sanitizer.AddressSanitizer false "crash evidence" "" =
      ReplayResult.unknownReport "crash evidence" "" ∧
    (replayOutcome (α := Nat) (fun _ _ => none) Lang.JVM
        Sanitizer.JazzerSanitizer false
        "docker: Error response from daemon: no space" "" =
        ReplayResult.dockerUnavailable
          "docker: Error response from daemon: no space" ∨
      replayOutcome (α := Nat) (fun _ _ => none) Lang.JVM
        Sanitizer.JazzerSanitizer false
        "docker: Error response from daemon: no space" "" =
        ReplayResult.dockerUnavailable "") :=
  ⟨(replay_unknown_fallback (fun _ _ => none) Lang.CLIKE
      Sanitizer.AddressSanitizer "crash evidence" "" rfl).1,
   (replay_unknown_fallback (fun _ _ => none) Lang.CLIKE
      Sanitizer.AddressSanitizer "crash evidence" "" rfl).2.1 (by decide)
     (by decide),
   (replay_unknown_fallback (fun _ _ => none) Lang.JVM
      Sanitizer.JazzerSanitizer
      "docker: Error response from daemon: no space" "" rfl).2.2
     (Or.inl (by decide))⟩

/-! ### PoC path resolution (Builder.resolve_poc_path and the OSS-Fuzz override) -/

structure OSSFuzzPoC where
  path : String
  harness_name : String
deriving DecidableEq

namespace Builder

/-- Builder.resolve_poc_path: the base implementation performs no translation
and returns the argument token unchanged. -/
def resolve_poc_path {α : Type} (arg_token : String) (pocs : List α) : String :=
  let _ := pocs
  arg_token

end Builder

namespace OSSFuzzBuilder

/-- OSSFuzzBuilder.resolve_poc_path: the token "/testcase" resolves to the
path of the first PoC when the PoC list is non-empty; every other token (and
"/testcase" with an empty list) falls through unchanged. -/
def resolve_poc_path (arg_token : String) (pocs : List OSSFuzzPoC) : String :=
  if arg_token = "/testcase" then
    match pocs with
    | poc :: _ => poc.path
    | [] => arg_token
  else arg_token

end OSSFuzzBuilder

/-- C10: OSSFuzzBuilder.resolve_poc_path returns the first PoC's path when
the token is the literal "/testcase" and the PoC list is non-empty; for any
other token, or for "/testcase" with an empty list, it returns the token
unchanged; the base Builder implementation returns every token unchanged. -/
theorem resolve_poc_path_spec (t : String) (pocs : List OSSFuzzPoC) :
    (∀ poc rest, t = "/testcase" → pocs = poc :: rest →
      OSSFuzzBuilder.resolve_poc_path t pocs = poc.path) ∧
    (t ≠ "/testcase" → OSSFuzzBuilder.resolve_poc_path t pocs = t) ∧
    (pocs = [] → OSSFuzzBuilder.resolve_poc_path t pocs = t) ∧
    Builder.resolve_poc_path t pocs = t := by
  refine ⟨?_, ?_, ?_, rfl⟩
  · intro poc rest ht hp
    rw [ht, hp]
    rfl
  · intro ht
    simp [OSSFuzzBuilder.resolve_poc_path, ht]
  · intro hp
    rw [hp]
    simp [OSSFuzzBuilder.resolve_poc_path]

theorem resolve_poc_path_spec_witness :
    OSSFuzzBuilder.resolve_poc_path "/testcase"
        [⟨"/tmp/poc.bin", "fuzzer"⟩] = "/tmp/poc.bin" ∧
    OSSFuzzBuilder.resolve_poc_path "-rss_limit_mb=2560"
        [⟨"/tmp/poc.bin", "fuzzer"⟩] = "-rss_limit_mb=2560" ∧
    OSSFuzzBuilder.resolve_poc_path "/testcase" [] = "/testcase" ∧
    Builder.resolve_poc_path "/testcase"
        ([⟨"/tmp/poc.bin", "fuzzer"⟩] : List OSSFuzzPoC) = "/testcase" :=
  ⟨(resolve_poc_path_spec "/testcase" [⟨"/tmp/poc.bin", "fuzzer"⟩]).1
      ⟨"/tmp/poc.bin", "fuzzer"⟩ [] rfl rfl,
   (resolve_poc_path_spec "-rss_limit_mb=2560"
      [⟨"/tmp/poc.bin", "fuzzer"⟩]).2.1 (by decide),
   (resolve_poc_path_spec "/testcase" []).2.2.1 rfl,
   (resolve_poc_path_spec "/testcase" [⟨"/tmp/poc.bin", "fuzzer"⟩]).2.2.2⟩

/-! ### The diagnosis loop (create_debugger_tool's debugger + DebuggerSession)

The debugger tool creates a DebuggerSession, calls start, returns early when
the start message reports a missing or failing backend, and otherwise runs
the bounded hypothesis/command loop: at each step it executes the strategy's
commands and next action through the session, breaks on a "quit" next action,
and asks the policy collaborator (llm.invoke plus _parse_json_response) for
the next strategy.  session.stop() is called once after the loop.

The policy collaborator is a function Nat → Except Unit Strategy: the k-th
llm.invoke either raises (error, the exception propagating out of the tool)
or yields a parsed strategy.  The session is modelled by its alive flag, a
counter of stop() invocations and a counter of commands actually sent to the
child.  DebuggerSession.run_command returns early when the session is not
alive, ignores blank input, invokes stop() when the (path-fixed) command is
a quit synonym, and otherwise sends the line and waits for the prompt: that
round-trip either returns output, times out (state unchanged), or hits
pexpect.EOF, in which case run_command invokes stop() before returning; the
EOF schedule is an oracle eof : Nat → Bool indexed by the send counter.
The path-rewriting filter never turns a command into a quit synonym nor a
quit synonym into anything else.  The two post-loop summarization calls
happen after stop() and do not touch the session, so they are omitted;
start's optional "set args" round-trip is assumed to complete (a started
outcome models a start whose spawn and argument setup finished and whose
captured banner is the outcome's banner field). -/

structure Strategy where
  commands : List String
  next_action : String
deriving DecidableEq

def isSpaceChar (c : Char) : Bool :=
  c == ' ' || c == '\t' || c == '\n' || c == '\r'

/-- Python str.strip() on a character list: drop whitespace at both ends. -/
def stripChars (cs : List Char) : List Char :=
  ((cs.dropWhile isSpaceChar).reverse.dropWhile isSpaceChar).reverse

/-- DebuggerSession.run_command recognizes these session-terminating inputs
(clean_cmd.lower() in ("q", "quit", "exit")). -/
def isQuitSynonym (cmd : String) : Bool :=
  let c := String.mk ((stripChars cmd.data).map Char.toLower)
  c == "q" || c == "quit" || c == "exit"

structure SessionState where
  alive : Bool
  stopCalls : Nat
  sends : Nat
deriving DecidableEq

/-- One invocation of DebuggerSession.stop(). -/
def sessionStop (ss : SessionState) : SessionState :=
  ⟨false, ss.stopCalls + 1, ss.sends⟩

/-- DebuggerSession.run_command: early return when the child is gone; blank
commands are ignored; quit synonyms invoke stop(); any other command is sent
to the child (incrementing the send counter) and the wait for the prompt
either succeeds or times out (state unchanged) or hits pexpect.EOF, which
invokes stop() before returning. -/
def run_command (eof : Nat → Bool) (ss : SessionState) (cmd : String) :
    SessionState :=
  if !ss.alive then ss
  else if stripChars cmd.data = [] then ss
  else if isQuitSynonym cmd then sessionStop ss
  else if eof ss.sends then sessionStop ⟨ss.alive, ss.stopCalls, ss.sends + 1⟩
  else ⟨ss.alive, ss.stopCalls, ss.sends + 1⟩

/-- The for-loop over strategy.commands inside one loop iteration. -/
def execCommands (eof : Nat → Bool) (ss : SessionState) (cmds : List String) :
    SessionState :=
  cmds.foldl (run_command eof) ss

structure ToolRun where
  iterations : Nat
  stopCalls : Nat
  raised : Bool
deriving DecidableEq

def MAX_STEPS : Nat := 10

/-- The while-loop of the debugger tool, with fuel = max_steps - step.  On
normal exit (step bound reached or "quit" next action) session.stop() is
invoked once; when the policy collaborator raises, the exception propagates
and no further stop() invocation happens. -/
def loopGo (eof : Nat → Bool) (policy : Nat → Except Unit Strategy) :
    Nat → Strategy → Nat → SessionState → Nat → ToolRun
  | 0, _, _, ss, iters => ⟨iters, (sessionStop ss).stopCalls, false⟩
  | fuel + 1, strat, callIdx, ss, iters =>
    if strat.next_action = "quit" then
      ⟨iters + 1,
        (sessionStop (execCommands eof ss strat.commands)).stopCalls, false⟩
    else
      match policy callIdx with
      | Except.error _ =>
        ⟨iters + 1,
          (run_command eof (execCommands eof ss strat.commands)
            strat.next_action).stopCalls,
          true⟩
      | Except.ok next =>
        loopGo eof policy fuel next (callIdx + 1)
          (run_command eof (execCommands eof ss strat.commands)
            strat.next_action)
          (iters + 1)

/-- The three ways DebuggerSession.start can come back to the tool: no
backend binary found (no child spawned, no stop() call), a spawn failure
(start calls stop() itself before returning the failure message), or a
successful start, whose return message appends the captured debugger banner
to "Debugger started successfully." with a newline. -/
inductive StartOutcome where
  | noDebugger
  | spawnFailed
  | started (banner : String)
deriving DecidableEq

def startMsg : StartOutcome → String
  | StartOutcome.noDebugger => "No debugger available. Please install GDB or LLDB."
  | StartOutcome.spawnFailed => "Failed to start local GDB: timeout"
  | StartOutcome.started banner => "Debugger started successfully.\n" ++ banner

def startStopCalls : StartOutcome → Nat
  | StartOutcome.spawnFailed => 1
  | _ => 0

/-- The backend path-substitution directive that session.set_source_map sends
through run_command right after the early-return check. -/
def sourceMapCmd : String := "set substitute-path /src/project /workspace/source"

/-- The debugger tool body from session creation to the unconditional
session.stop() after the loop: early return when the start message contains
"Failed" or "No debugger" (the tool itself never calls stop() on that path,
even when the message is a successful start whose banner contains "Failed"),
then the set_source_map round-trip, the initial policy call, and the bounded
loop. -/
def debuggerToolRun (so : StartOutcome) (eof : Nat → Bool)
    (policy : Nat → Except Unit Strategy) : ToolRun :=
  let stops := startStopCalls so
  if containsSubstring (startMsg so) "Failed" ||
      containsSubstring (startMsg so) "No debugger" then
    ⟨0, stops, false⟩
  else
    let ss0 := run_command eof ⟨true, stops, 0⟩ sourceMapCmd
    match policy 0 with
    | Except.error _ => ⟨0, ss0.stopCalls, true⟩
    | Except.ok strat => loopGo eof policy MAX_STEPS strat 1 ss0 0

theorem run_command_stopCalls (eof : Nat → Bool) (ss : SessionState)
    (cmd : String) (heof : ∀ i, eof i = false)
    (h : isQuitSynonym cmd = false) :
    (run_command eof ss cmd).stopCalls = ss.stopCalls := by
  unfold run_command
  rw [h, heof ss.sends]
  split
  · rfl
  · split
    · rfl
    · simp

theorem execCommands_stopCalls (eof : Nat → Bool) (cmds : List String)
    (heof : ∀ i, eof i = false)
    (h : ∀ c ∈ cmds, isQuitSynonym c = false) :
    ∀ ss, (execCommands eof ss cmds).stopCalls = ss.stopCalls := by
  induction cmds with
  | nil => intro ss; rfl
  | cons c rest ih =>
    intro ss
    have hc := h c (List.mem_cons_self c rest)
    have hrest : ∀ x ∈ rest, isQuitSynonym x = false :=
      fun x hx => h x (List.mem_cons_of_mem c hx)
    show (execCommands eof (run_command eof ss c) rest).stopCalls = ss.stopCalls
    rw [ih hrest (run_command eof ss c)]
    exact run_command_stopCalls eof ss c heof hc

theorem loopGo_iterations (eof : Nat → Bool) (policy : Nat → Except Unit Strategy)
    (hp : ∀ i, ∃ s, policy i = Except.ok s ∧ s.next_action ≠ "quit")
    (fuel : Nat) :
    ∀ strat callIdx ss iters, strat.next_action ≠ "quit" →
      (loopGo eof policy fuel strat callIdx ss iters).iterations =
        iters + fuel := by
  induction fuel with
  | zero => intro strat callIdx ss iters _; rfl
  | succ n ih =>
    intro strat callIdx ss iters hne
    rcases hp callIdx with ⟨next, hnext, hnextne⟩
    rw [loopGo, if_neg hne, hnext]
    rw [ih next (callIdx + 1) _ (iters + 1) hnextne]
    omega

/-- C6: when the session starts (with a clean banner) and the policy
collaborator always returns a strategy whose next action is not "quit", the
hypothesis/command loop runs exactly 10 iterations (the fixed step bound)
and then terminates — regardless of how the debugger round-trips behave
(the EOF schedule is universally quantified). -/
theorem diagnosis_loop_bounded (eof : Nat → Bool)
    (policy : Nat → Except Unit Strategy)
    (hp : ∀ i, ∃ s, policy i = Except.ok s ∧ s.next_action ≠ "quit") :
    (debuggerToolRun (StartOutcome.started "") eof policy).iterations = 10 := by
  rcases hp 0 with ⟨s0, hs0, hs0ne⟩
  have hcond :
      (containsSubstring (startMsg (StartOutcome.started "")) "Failed" ||
       containsSubstring (startMsg (StartOutcome.started "")) "No debugger") =
        false := by
    decide
  unfold debuggerToolRun
  rw [hcond]
  simp only [Bool.false_eq_true, if_false, hs0]
  exact loopGo_iterations eof policy hp MAX_STEPS s0 1 _ 0 hs0ne

theorem diagnosis_loop_bounded_witness :
    (debuggerToolRun (StartOutcome.started "") (fun _ => false)
        (fun _ => Except.ok ⟨[], "continue"⟩)).iterations = 10 ∧
    (debuggerToolRun (StartOutcome.started "") (fun _ => true)
        (fun _ => Except.ok ⟨[], "continue"⟩)).iterations = 10 :=
  ⟨diagnosis_loop_bounded (fun _ => false) (fun _ => Except.ok ⟨[], "continue"⟩)
     (fun _ => ⟨⟨[], "continue"⟩, rfl, by decide⟩),
   diagnosis_loop_bounded (fun _ => true) (fun _ => Except.ok ⟨[], "continue"⟩)
     (fun _ => ⟨⟨[], "continue"⟩, rfl, by decide⟩)⟩

/-- C7: the claim says stop() is invoked exactly once per run, including when
the policy collaborator raises mid-loop and when the debugger backend is
unavailable from the start.  This fails on the code in four ways, all
exhibited below: the tool has no try/finally, so a collaborator exception
propagates with stop() never invoked; the backend-unavailable path returns
the start message early without any stop() invocation; a started session
whose captured banner contains "Failed" also triggers the early return, with
the live session never stopped; and a round-trip that hits pexpect.EOF makes
run_command invoke stop() itself, after which the unconditional post-loop
session.stop() is a second invocation. -/
theorem session_teardown_counterexample :
    (debuggerToolRun (StartOutcome.started "") (fun _ => false)
        (fun _ => Except.error ())).raised = true ∧
    (debuggerToolRun (StartOutcome.started "") (fun _ => false)
        (fun _ => Except.error ())).stopCalls = 0 ∧
    (debuggerToolRun StartOutcome.noDebugger (fun _ => false)
        (fun _ => Except.ok ⟨[], "continue"⟩)).stopCalls = 0 ∧
    (debuggerToolRun
        (StartOutcome.started "warning: Failed to read symbols from target")
        (fun _ => false)
        (fun _ => Except.ok ⟨[], "continue"⟩)).stopCalls = 0 ∧
    (debuggerToolRun (StartOutcome.started "") (fun _ => true)
        (fun _ => Except.ok ⟨[], "quit"⟩)).stopCalls = 2 := by
  refine ⟨?_, ?_, ?_, ?_, ?_⟩ <;> decide

theorem loopGo_stopCalls (eof : Nat → Bool)
    (policy : Nat → Except Unit Strategy)
    (heof : ∀ i, eof i = false)
    (hp : ∀ i, ∃ s, policy i = Except.ok s ∧
      (∀ c ∈ s.commands, isQuitSynonym c = false) ∧
      (s.next_action = "quit" ∨ isQuitSynonym s.next_action = false))
    (fuel : Nat) :
    ∀ strat callIdx ss iters,
      (∀ c ∈ strat.commands, isQuitSynonym c = false) →
      (strat.next_action = "quit" ∨ isQuitSynonym strat.next_action = false) →
      (loopGo eof policy fuel strat callIdx ss iters).stopCalls =
        ss.stopCalls + 1 := by
  induction fuel with
  | zero => intro strat callIdx ss iters _ _; rfl
  | succ n ih =>
    intro strat callIdx ss iters hcmds hna
    rw [loopGo]
    by_cases hq : strat.next_action = "quit"
    · rw [if_pos hq]
      show (execCommands eof ss strat.commands).stopCalls + 1 = ss.stopCalls + 1
      rw [execCommands_stopCalls eof strat.commands heof hcmds ss]
    · rw [if_neg hq]
      rcases hna with hna | hna
      · exact absurd hna hq
      · rcases hp callIdx with ⟨next, hnext, hnc, hnn⟩
        rw [hnext]
        rw [ih next (callIdx + 1) _ (iters + 1) hnc hnn]
        rw [run_command_stopCalls eof _ strat.next_action heof hna]
        rw [execCommands_stopCalls eof strat.commands heof hcmds ss]

/-- C7 (amended): when the session starts successfully with a start message
containing neither "Failed" nor "No debugger", the policy collaborator never
raises, no issued command (nor a quit synonym other than the literal "quit"
as next action) terminates the session, and no debugger round-trip ends in
EOF, session.stop() is invoked exactly once per run; when start fails on a
spawn error, stop() is likewise invoked exactly once (inside start itself).
But when the debugger backend is unavailable from the start, stop() is never
invoked; when the collaborator raises mid-loop, the exception propagates
without any stop() invocation; when a started banner contains "Failed", the
tool returns early with the live session never stopped; and when a
round-trip hits EOF, stop() is invoked twice. -/
theorem session_teardown (banner : String) (eof eof2 : Nat → Bool)
    (policy policy2 : Nat → Except Unit Strategy)
    (hbF : containsSubstring (startMsg (StartOutcome.started banner))
      "Failed" = false)
    (hbN : containsSubstring (startMsg (StartOutcome.started banner))
      "No debugger" = false)
    (heof : ∀ i, eof i = false)
    (hp : ∀ i, ∃ s, policy i = Except.ok s ∧
      (∀ c ∈ s.commands, isQuitSynonym c = false) ∧
      (s.next_action = "quit" ∨ isQuitSynonym s.next_action = false)) :
    (debuggerToolRun (StartOutcome.started banner) eof policy).stopCalls = 1 ∧
    (debuggerToolRun StartOutcome.spawnFailed eof2 policy2).stopCalls = 1 ∧
    (debuggerToolRun StartOutcome.noDebugger eof2 policy2).stopCalls = 0 := by
  refine ⟨?_, rfl, rfl⟩
  rcases hp 0 with ⟨s0, hs0, hc0, hn0⟩
  unfold debuggerToolRun
  rw [hbF, hbN]
  simp only [Bool.or_self, Bool.false_eq_true, if_false, hs0]
  rw [loopGo_stopCalls eof policy heof hp MAX_STEPS s0 1 _ 0 hc0 hn0]
  rw [run_command_stopCalls eof _ sourceMapCmd heof (by decide)]
  rfl

theorem session_teardown_witness :
    (debuggerToolRun (StartOutcome.started "Reading symbols from a.out...")
        (fun _ => false)
        (fun _ => Except.ok ⟨["bt", "info locals"], "step"⟩)).stopCalls = 1 ∧
    (debuggerToolRun StartOutcome.spawnFailed (fun _ => false)
        (fun _ => Except.ok ⟨[], "continue"⟩)).stopCalls = 1 ∧
    (debuggerToolRun StartOutcome.noDebugger (fun _ => false)
        (fun _ => Except.ok ⟨[], "continue"⟩)).stopCalls = 0 :=
  session_teardown "Reading symbols from a.out..." (fun _ => false)
    (fun _ => false)
    (fun _ => Except.ok ⟨["bt", "info locals"], "step"⟩)
    (fun _ => Except.ok ⟨[], "continue"⟩)
    (by decide) (by decide) (fun _ => rfl)
    (fun _ => ⟨⟨["bt", "info locals"], "step"⟩, rfl, by decide, Or.inr (by decide)⟩)

/-! ### The command-rewriting filter (run_cmd_with_path_fix in default.py)

The filter first intercepts "run" directives: when the first token is "r" or
"run", a following token equal to the original or resolved binary path (or
ending in "/" plus the binary's basename) is removed, and the remaining
tokens go through builder.resolve_poc_path; the command is then re-joined
from its tokens.  Afterwards re.sub with the pattern (\S+):(\d+) rewrites
every path:line occurrence, replacing the path component with
guess_relpath(develop_source_root, path) when that returns a value and
keeping the line number; guess_relpath lives in parser/utils.py, which is
not among the analyzed sources, so it is an abstract parameter
guess : String → Option String (modelled from the spec: a best-guess
relative path under the analysis source root, or nothing).

Commands are modelled as their whitespace-token lists (the source operates
on strip()/split() tokens and re-joins with single spaces, and the regex
pattern cannot match across whitespace).  Within one token, the first regex
match starts at the token head, its (\S+) group greedily extends to the
last colon that is followed by a digit and preceded by at least one
character, (\d+) takes the maximal digit run, and scanning resumes after
the match. -/

/-- pathlib Path(...).name: the last component, ignoring empty and "."
components. -/
def pathName (s : String) : String :=
  (((s.splitOn "/").filter (fun c => c != "" && c != ".")).getLast?).getD ""

/-- The rightmost index i with cs[i] = ':', a digit at i + 1 and at least
one character before i: the colon the greedy (\S+) group stops at. -/
def fcdAux : List Char → Nat → Option Nat → Option Nat
  | c1 :: c2 :: rest, i, best =>
    fcdAux (c2 :: rest) (i + 1)
      (if c1 = ':' ∧ c2.isDigit = true ∧ 1 ≤ i then some i else best)
  | _, _, best => best

def fcd (cs : List Char) : Option Nat := fcdAux cs 0 none

/-- One pass of re.sub((\S+):(\d+), ...) inside a single token: replace the
match (path is the prefix before the found colon, digits the maximal digit
run after it), then continue on the remaining suffix.  The fuel argument is
an upper bound on the number of passes; the token length always suffices. -/
def fixGo (guess : String → Option String) : Nat → List Char → List Char
  | 0, cs => cs
  | fuel + 1, cs =>
    match fcd cs with
    | none => cs
    | some i =>
      let path := cs.take i
      let after := cs.drop (i + 1)
      let digits := after.takeWhile Char.isDigit
      let suffix := after.dropWhile Char.isDigit
      (match guess (String.mk path) with
       | some g => g.data
       | none => path) ++ ':' :: (digits ++ fixGo guess fuel suffix)

def fixToken (guess : String → Option String) (tok : String) : String :=
  String.mk (fixGo guess tok.data.length tok.data)

/-- run_cmd_with_path_fix on the token list of a command: the run-directive
interception followed by the path:line rewriting over every token. -/
def run_cmd_with_path_fix (program develop_program : String)
    (resolve : String → String) (guess : String → Option String)
    (tokens : List String) : List String :=
  let cmd : List String :=
    match tokens with
    | [] => tokens
    | t0 :: rest =>
      if t0 = "r" ∨ t0 = "run" then
        let args : List String :=
          match rest with
          | [] => []
          | first :: rest2 =>
            if first = program ∨ first = develop_program ∨
                first.endsWith ("/" ++ pathName program) = true then rest2
            else rest
        t0 :: args.map resolve
      else tokens
  cmd.map (fixToken guess)

theorem fcdAux_no_colon : ∀ (l : List Char), (∀ c ∈ l, c ≠ ':') →
    ∀ i best, fcdAux l i best = best := by
  intro l
  induction l with
  | nil => intro _ i best; rfl
  | cons c1 rest ih =>
    intro h i best
    cases rest with
    | nil => rfl
    | cons c2 r2 =>
      have hc1 : c1 ≠ ':' := h c1 (List.mem_cons_self c1 _)
      have hrest : ∀ c ∈ c2 :: r2, c ≠ ':' :=
        fun c hc => h c (List.mem_cons_of_mem c1 hc)
      rw [fcdAux, if_neg (fun hcond => hc1 hcond.1)]
      exact ih hrest (i + 1) best

theorem digit_ne_colon {c : Char} (h : c.isDigit = true) : c ≠ ':' := by
  intro he
  rw [he] at h
  cases h

theorem fcdAux_shape : ∀ (p : List Char), p ≠ [] → (∀ c ∈ p, c ≠ ':') →
    ∀ (d : List Char), d ≠ [] → (∀ c ∈ d, c.isDigit = true) →
    ∀ i best, fcdAux (p ++ ':' :: d) i best = some (i + p.length) := by
  intro p
  induction p with
  | nil => intro h; exact absurd rfl h
  | cons c1 p' ih =>
    intro _ hpc d hd hdd i best
    have hc1 : c1 ≠ ':' := hpc c1 (List.mem_cons_self c1 _)
    cases p' with
    | nil =>
      cases d with
      | nil => exact absurd rfl hd
      | cons d0 d' =>
        have hd0 : d0.isDigit = true := hdd d0 (List.mem_cons_self d0 _)
        show fcdAux (c1 :: ':' :: d0 :: d') i best = some (i + 1)
        rw [fcdAux, if_neg (fun hcond => hc1 hcond.1)]
        rw [fcdAux, if_pos ⟨rfl, hd0, Nat.le_add_left 1 i⟩]
        have hnc : ∀ c ∈ d0 :: d', c ≠ ':' :=
          fun c hc => digit_ne_colon (hdd c hc)
        rw [fcdAux_no_colon (d0 :: d') hnc]
    | cons c2 p'' =>
      have hpc' : ∀ c ∈ c2 :: p'', c ≠ ':' :=
        fun c hc => hpc c (List.mem_cons_of_mem c1 hc)
      have ih' := ih (by simp) hpc' d hd hdd (i + 1) best
      rw [List.cons_append] at ih'
      show fcdAux ((c1 :: c2 :: p'') ++ ':' :: d) i best = _
      rw [List.cons_append, List.cons_append, fcdAux,
        if_neg (fun hcond => hc1 hcond.1), ih']
      congr 1
      simp [List.length_cons]
      omega

theorem fixGo_of_fcd_none (guess : String → Option String) (cs : List Char)
    (h : fcd cs = none) : ∀ fuel, fixGo guess fuel cs = cs := by
  intro fuel
  cases fuel with
  | zero => rfl
  | succ n => rw [fixGo, h]

theorem fixGo_nil (guess : String → Option String) (fuel : Nat) :
    fixGo guess fuel [] = [] := by
  cases fuel with
  | zero => rfl
  | succ n => rfl

theorem takeWhile_all {f : Char → Bool} (d : List Char)
    (h : ∀ c ∈ d, f c = true) : d.takeWhile f = d := by
  induction d with
  | nil => rfl
  | cons c rest ih =>
    rw [List.takeWhile_cons, h c (List.mem_cons_self c rest)]
    rw [ih (fun x hx => h x (List.mem_cons_of_mem c hx))]
    rfl

theorem dropWhile_all {f : Char → Bool} (d : List Char)
    (h : ∀ c ∈ d, f c = true) : d.dropWhile f = [] := by
  induction d with
  | nil => rfl
  | cons c rest ih =>
    rw [List.dropWhile_cons, h c (List.mem_cons_self c rest)]
    simp only [if_true]
    exact ih (fun x hx => h x (List.mem_cons_of_mem c hx))

theorem fixGo_shape (guess : String → Option String) (fuel : Nat)
    (p d : List Char) (hp : p ≠ []) (hpc : ∀ c ∈ p, c ≠ ':')
    (hd : d ≠ []) (hdd : ∀ c ∈ d, c.isDigit = true) :
    fixGo guess (fuel + 1) (p ++ ':' :: d) =
      (match guess (String.mk p) with
       | some g => g.data
       | none => p) ++ ':' :: d := by
  have hfcd : fcd (p ++ ':' :: d) = some p.length := by
    unfold fcd
    rw [fcdAux_shape p hp hpc d hd hdd 0 none, Nat.zero_add]
  have hsplit : p ++ ':' :: d = (p ++ [':']) ++ d := by
    rw [List.append_assoc]
    rfl
  have hlen : (p ++ [':']).length = p.length + 1 := by
    simp [List.length_append]
  have htake : (p ++ ':' :: d).take p.length = p := List.take_left p (':' :: d)
  have hdrop : (p ++ ':' :: d).drop (p.length + 1) = d := by
    rw [hsplit, ← hlen]
    exact List.drop_left (p ++ [':']) d
  rw [fixGo, hfcd]
  simp only [htake, hdrop]
  rw [takeWhile_all d hdd, dropWhile_all d hdd, fixGo_nil, List.append_nil]

theorem fixToken_spec (guess : String → Option String) (path line : String)
    (hpath1 : path.data ≠ []) (hpath2 : ∀ c ∈ path.data, c ≠ ':')
    (hline1 : line.data ≠ []) (hline2 : ∀ c ∈ line.data, c.isDigit = true) :
    fixToken guess (path ++ ":" ++ line) =
      match guess path with
      | some g => g ++ ":" ++ line
      | none => path ++ ":" ++ line := by
  have hdata : (path ++ ":" ++ line).data = path.data ++ ':' :: line.data := by
    rw [strData_append, strData_append]
    rw [List.append_assoc]
    rfl
  have hlen : (path ++ ":" ++ line).data.length =
      (path.data.length + line.data.length) + 1 := by
    rw [hdata]
    simp [List.length_append]
    omega
  unfold fixToken
  rw [hlen, hdata]
  rw [fixGo_shape guess _ path.data line.data hpath1 hpath2 hline1 hline2]
  have heta : String.mk path.data = path := rfl
  rw [heta]
  cases hg : guess path with
  | some g =>
    simp only
    have : (g ++ ":" ++ line).data = g.data ++ ':' :: line.data := by
      rw [strData_append, strData_append, List.append_assoc]
      rfl
    rw [← this]
  | none =>
    simp only
    rw [← hdata]

/-- C8: a "run"/"r" command whose first argument matches the original or
resolved binary path (exactly, or by "/" plus basename suffix) has that
binary token removed and every remaining placeholder token resolved through
builder.resolve_poc_path, so "run <binary> /testcase" becomes
"run <poc path>"; and a token of shape path:line has its path component
rewritten to the guessed relative path under the analysis source root when a
guess exists (and is left unchanged otherwise), the line number staying
untouched in either case. -/
theorem command_rewriting (program develop_program : String)
    (poc : OSSFuzzPoC) (pocs : List OSSFuzzPoC)
    (guess : String → Option String) (t0 b path line tok : String)
    (ht0 : t0 = "r" ∨ t0 = "run")
    (hb : b = program ∨ b = develop_program ∨
      b.endsWith ("/" ++ pathName program) = true)
    (hpoc : fcd poc.path.data = none)
    (hpath1 : path.data ≠ []) (hpath2 : ∀ c ∈ path.data, c ≠ ':')
    (hline1 : line.data ≠ []) (hline2 : ∀ c ∈ line.data, c.isDigit = true)
    (htok : tok = path ++ ":" ++ line)
    (htok1 : tok ≠ "r") (htok2 : tok ≠ "run") :
    run_cmd_with_path_fix program develop_program
        (fun t => OSSFuzzBuilder.resolve_poc_path t (poc :: pocs)) guess
        [t0, b, "/testcase"] = [t0, poc.path] ∧
    run_cmd_with_path_fix program develop_program
        (fun t => OSSFuzzBuilder.resolve_poc_path t (poc :: pocs)) guess
        [tok] =
      [(match guess path with
        | some g => g ++ ":" ++ line
        | none => tok)] := by
  constructor
  · have hstep : run_cmd_with_path_fix program develop_program
        (fun t => OSSFuzzBuilder.resolve_poc_path t (poc :: pocs)) guess
        [t0, b, "/testcase"] = [fixToken guess t0, fixToken guess poc.path] := by
      simp only [run_cmd_with_path_fix]
      rw [if_pos ht0, if_pos hb]
      rfl
    rw [hstep]
    have h1 : fixToken guess t0 = t0 := by
      rcases ht0 with h | h <;> (subst h; rfl)
    have h2 : fixToken guess poc.path = poc.path := by
      unfold fixToken
      rw [fixGo_of_fcd_none guess poc.path.data hpoc]
    rw [h1, h2]
  · have hne : ¬(tok = "r" ∨ tok = "run") := by
      rintro (h | h)
      · exact htok1 h
      · exact htok2 h
    have hstep : run_cmd_with_path_fix program develop_program
        (fun t => OSSFuzzBuilder.resolve_poc_path t (poc :: pocs)) guess
        [tok] = [fixToken guess tok] := by
      simp only [run_cmd_with_path_fix]
      rw [if_neg hne]
      rfl
    rw [hstep, htok,
      fixToken_spec guess path line hpath1 hpath2 hline1 hline2]

theorem command_rewriting_witness :
    run_cmd_with_path_fix "/out/fuzzer"
        "/ws/d41d-address/oss-fuzz/build/out/proj/fuzzer"
        (fun t => OSSFuzzBuilder.resolve_poc_path t
          [⟨"/tmp/poc.bin", "fuzzer"⟩])
        (fun s => if s = "somefile.c" then some "src/lib/somefile.c" else none)
        ["run", "/out/fuzzer", "/testcase"] = ["run", "/tmp/poc.bin"] ∧
    run_cmd_with_path_fix "/out/fuzzer"
        "/ws/d41d-address/oss-fuzz/build/out/proj/fuzzer"
        (fun t => OSSFuzzBuilder.resolve_poc_path t
          [⟨"/tmp/poc.bin", "fuzzer"⟩])
        (fun s => if s = "somefile.c" then some "src/lib/somefile.c" else none)
        ["somefile.c:42"] =
      [(match (fun s => if s = "somefile.c" then some "src/lib/somefile.c"
          else none) "somefile.c" with
        | some g => g ++ ":" ++ "42"
        | none => "somefile.c:42")] :=
  command_rewriting "/out/fuzzer"
    "/ws/d41d-address/oss-fuzz/build/out/proj/fuzzer"
    ⟨"/tmp/poc.bin", "fuzzer"⟩ []
    (fun s => if s = "somefile.c" then some "src/lib/somefile.c" else none)
    "run" "/out/fuzzer" "somefile.c" "42" "somefile.c:42"
    (Or.inr rfl) (Or.inl rfl) (by decide) (by decide) (by decide) (by decide)
    (by decide) (by decide) (by decide) (by decide)

end PatchAgent
